import Mathlib

/-!
Verification of the form-kit validation core against its source.

The JavaScript modules (features/form-feature-validators.js, the
form-init module and helpers/form-helpers.js) are shallowly embedded:

* DOM inputs become an explicit `Input` record carrying the pieces of
  state the code reads and writes: `value`, the `type` attribute, the
  `required` flag, platform constraint validity (`nativeOk`), the
  custom-validity message (`setCustomValidity` target), the class list
  and the optional sibling `.invalid-feedback` text.
* A form is its ordered list of inputs plus its own class list and the
  optional submit button's `disabled` flag.
* `element.checkValidity()` is `nativeOk` together with an empty
  custom-validity message, exactly the DOM rule that a non-empty
  custom-validity message makes the element invalid (`customError`).
* JavaScript `Date` parsing is abstracted as a parameter
  `parse : String → Option Int` returning the timestamp, `none`
  standing for an Invalid Date (`NaN` time value); `Date` comparison
  in the source compares the time values.
* Runs of the validator runner additionally return the trace of
  validator names actually invoked and of the `console.warn`
  diagnostics, so that claims about which validators run are statable.
-/

namespace FormKit

/-- Result record `\x7b valid, message \x7d` returned by every validator. -/
structure VResult where
  valid : Bool
  message : String
deriving DecidableEq, Inhabited

/-- Options carried by an object-form validator config.  The built-in
`dateRange` reads `startField`, `endField` and `message`; an absent
`message` key (falsy in the source) is modelled as `""`. -/
structure Options where
  startField : String
  endField : String
  message : String
deriving DecidableEq, Inhabited

/-- The slice of an `HTMLInputElement` the validation code touches. -/
structure Input where
  name : String
  value : String
  typ : String
  required : Bool
  nativeOk : Bool
  customValidity : String
  classes : List String
  feedback : Option String
deriving DecidableEq, Inhabited

/-- The slice of an `HTMLFormElement` the validation code touches. -/
structure Form where
  fields : List Input
  classes : List String
  submitDisabled : Option Bool
deriving DecidableEq, Inhabited

/-- A custom validator: `(value, options, form) => \x7b valid, message \x7d`. -/
abbrev Validator : Type := String → Options → Form → VResult

/-- The module-level `validators` Map, as an association list whose keys
are unique (the representation invariant of a JavaScript `Map`). -/
abbrev Registry : Type := List (String × Validator)

/-- `classList.add`: appends the token unless already present. -/
def addClass (cs : List String) (c : String) : List String :=
  if c ∈ cs then cs else cs ++ [c]

/-- `classList.remove`: drops every occurrence of the token. -/
def removeClass (cs : List String) (c : String) : List String :=
  cs.filter (fun x => x ≠ c)

/-- `input.checkValidity()`: platform constraints hold and no custom
validity message is set. -/
def checkValidity (input : Input) : Bool :=
  input.nativeOk && decide (input.customValidity = "")

/-- `registerValidator(name, fn)` = `validators.set(name, fn)`:
replaces the entry under `name` in place, else appends. -/
def registerValidator (registry : Registry) (name : String) (fn : Validator) : Registry :=
  match registry with
  | [] => [(name, fn)]
  | (k, v) :: rest =>
    if k = name then (name, fn) :: rest
    else (k, v) :: registerValidator rest name fn

/-- `getValidator(name)` = `validators.get(name)`: first (unique) match. -/
def getValidator (registry : Registry) (name : String) : Option Validator :=
  match registry with
  | [] => none
  | (k, v) :: rest => if k = name then some v else getValidator rest name

/-- `applyInvalidState(input, message)`: swap the style classes, and when
the message is truthy set it as custom validity and mirror it into the
sibling feedback element when one exists.  The one-argument call of the
source (`message` undefined) is the `""` case. -/
def applyInvalidState (input : Input) (message : String) : Input :=
  let cs := addClass (removeClass input.classes "is-valid") "is-invalid"
  if message = "" then
    { input with classes := cs }
  else
    { input with
        classes := cs
        customValidity := message
        feedback := input.feedback.map (fun _ => message) }

/-- `applyValidState(input)`: swap the style classes, clear custom validity. -/
def applyValidState (input : Input) : Input :=
  { input with
      classes := addClass (removeClass input.classes "is-invalid") "is-valid"
      customValidity := "" }

/-- `clearValidationState(input)`: drop both style classes, clear custom
validity. -/
def clearValidationState (input : Input) : Input :=
  { input with
      classes := removeClass (removeClass input.classes "is-valid") "is-invalid"
      customValidity := "" }

/-- A validator config entry: a bare name or an object `\x7bname, ...options\x7d`. -/
inductive VConfig where
  | bare : String → VConfig
  | withOptions : String → Options → VConfig
deriving DecidableEq

/-- The name of a config entry (`typeof config === 'string' ? config : config.name`). -/
def configName : VConfig → String
  | .bare n => n
  | .withOptions n _ => n

/-- The options of a config entry (`\x7b\x7d` for a bare name). -/
def configOptions : VConfig → Options
  | .bare _ => { startField := "", endField := "", message := "" }
  | .withOptions _ o => o

/-- Outcome of `runValidators`: the boolean return value, the updated
input, plus traces of the validators invoked and the warnings emitted. -/
structure RunResult where
  ok : Bool
  input : Input
  invoked : List String
  warnings : List String

/-- The `for (const config of validatorConfigs)` loop of `runValidators`,
entered only when the input passed `checkValidity()`. -/
def runLoop (registry : Registry) (input : Input) (form : Form) :
    List VConfig → RunResult
  | [] => { ok := true, input := applyValidState input, invoked := [], warnings := [] }
  | config :: rest =>
    match getValidator registry (configName config) with
    | none =>
      let r := runLoop registry input form rest
      { r with warnings := configName config :: r.warnings }
    | some validator =>
      let result := validator input.value (configOptions config) form
      if result.valid then
        let r := runLoop registry input form rest
        { r with invoked := configName config :: r.invoked }
      else
        { ok := false
          input := applyInvalidState input result.message
          invoked := [configName config]
          warnings := [] }

/-- `runValidators(input, validatorConfigs, form)`. -/
def runValidators (registry : Registry) (input : Input)
    (validatorConfigs : List VConfig) (form : Form) : RunResult :=
  if checkValidity input then
    runLoop registry input form validatorConfigs
  else
    { ok := false, input := applyInvalidState input "", invoked := [], warnings := [] }

/-- Names of the config entries that resolve to a registered validator. -/
def registeredNames (registry : Registry) (configs : List VConfig) : List String :=
  (configs.filter (fun c => (getValidator registry (configName c)).isSome)).map configName

/-- Names of the config entries that resolve to no registered validator. -/
def unregisteredNames (registry : Registry) (configs : List VConfig) : List String :=
  (configs.filter (fun c => (getValidator registry (configName c)).isNone)).map configName

/-- `form.checkValidity()`: every field satisfies its constraints. -/
def formCheckValidity (form : Form) : Bool :=
  form.fields.all checkValidity

/-- Replace the first field carrying the given name (the node
`querySelector` returned, mutated in place in the source). -/
def replaceField : List Input → String → Input → List Input
  | [], _, _ => []
  | x :: xs, n, i => if x.name = n then i :: xs else x :: replaceField xs n i

/-- Outcome of `validateFormWithCustom`: the boolean return value, the
updated form, plus traces of the fields the runner was invoked on and
of the per-field runner results, in order. -/
structure FormResult where
  ok : Bool
  form : Form
  evaluated : List String
  results : List Bool

/-- The `for (const [fieldName, validatorConfigs] of Object.entries(...))`
loop of `validateFormWithCustom`, threading the `allValid` accumulator. -/
def vfwcLoop (registry : Registry) :
    Form → Bool → List (String × List VConfig) → Form × Bool × List String × List Bool
  | form, allValid, [] => (form, allValid, [], [])
  | form, allValid, (fieldName, configs) :: rest =>
    match form.fields.find? (fun i => i.name = fieldName) with
    | none => vfwcLoop registry form allValid rest
    | some input =>
      let r := runValidators registry input configs form
      let form' := { form with fields := replaceField form.fields fieldName r.input }
      let allValid' := if r.ok then allValid else false
      let out := vfwcLoop registry form' allValid' rest
      (out.1, out.2.1, fieldName :: out.2.2.1, r.ok :: out.2.2.2)

/-- `validateFormWithCustom(form, fieldValidators)`. -/
def validateFormWithCustom (registry : Registry) (form : Form)
    (fieldValidators : List (String × List VConfig)) : FormResult :=
  let native := formCheckValidity form
  let form1 :=
    if native then form
    else { form with classes := addClass form.classes "was-validated" }
  let out := vfwcLoop registry form1 native fieldValidators
  let allValid := out.2.1
  let form3 :=
    if allValid then out.1
    else { out.1 with classes := addClass out.1.classes "was-validated" }
  { ok := allValid, form := form3, evaluated := out.2.2.1, results := out.2.2.2 }

/-- The built-in `dateRange` validator, with `new Date` parsing abstracted
as `parse` (`none` = Invalid Date). -/
def dateRange (parse : String → Option Int) : Validator := fun _value options form =>
  match form.fields.find? (fun i => i.name = options.startField) with
  | none => { valid := true, message := "" }
  | some startInput =>
    match form.fields.find? (fun i => i.name = options.endField) with
    | none => { valid := true, message := "" }
    | some endInput =>
      if startInput.value = "" ∨ endInput.value = "" then
        { valid := true, message := "" }
      else
        match parse startInput.value, parse endInput.value with
        | none, _ => { valid := false, message := "Invalid date format" }
        | some _, none => { valid := false, message := "Invalid date format" }
        | some startDate, some endDate =>
          if endDate ≤ startDate then
            { valid := false
              message :=
                if options.message = "" then "End date must be after start date"
                else options.message }
          else { valid := true, message := "" }

/-- `validateDateTimeRange(startDateTime, endDateTime)` from
helpers/form-helpers.js, the inlined submit-path range check, with the
same abstract `Date` parsing. -/
def validateDateTimeRange (parse : String → Option Int)
    (startDateTime endDateTime : String) : VResult :=
  if startDateTime = "" ∨ endDateTime = "" then
    { valid := false, message := "Both start and end date/time are required." }
  else
    match parse startDateTime, parse endDateTime with
    | none, _ => { valid := false, message := "Invalid date/time format." }
    | some _, none => { valid := false, message := "Invalid date/time format." }
    | some s, some e =>
      if e ≤ s then
        { valid := false, message := "End date/time must be after start date/time." }
      else { valid := true, message := "" }

/-- JavaScript `String.prototype.trim`, character-wise: strip leading and
trailing whitespace (kernel-computable rendition of `.trim()`). -/
def trimString (s : String) : String :=
  ⟨((s.data.dropWhile Char.isWhitespace).reverse.dropWhile Char.isWhitespace).reverse⟩

/-- One iteration of the completeness sweep of `validateFormFields` on a
required input: returns the updated input and whether it is non-empty
(select inputs need a selected value, text inputs non-whitespace text). -/
def sweepInput (input : Input) : Input × Bool :=
  if input.typ = "select-one" then
    if input.value = "" then
      let cs := removeClass input.classes "is-valid"
      (if "was-validated-field" ∈ cs then
          { input with classes := addClass cs "is-invalid" }
        else { input with classes := cs }, false)
    else
      ({ input with classes := addClass (removeClass input.classes "is-invalid") "is-valid" },
        true)
  else
    if trimString input.value = "" then
      let cs := removeClass input.classes "is-valid"
      (if "was-validated-field" ∈ cs then
          { input with classes := addClass cs "is-invalid" }
        else { input with classes := cs }, false)
    else
      ({ input with classes := addClass (removeClass input.classes "is-invalid") "is-valid" },
        true)

/-- The `requiredInputs.forEach` loop of `validateFormFields`: sweeps the
required fields only, accumulating `allValid`. -/
def sweepFields : List Input → List Input × Bool
  | [] => ([], true)
  | input :: rest =>
    if input.required then
      let s := sweepInput input
      let r := sweepFields rest
      (s.1 :: r.1, s.2 && r.2)
    else
      let r := sweepFields rest
      (input :: r.1, r.2)

/-- `validateFormFields()` from the form-init module: sweep every
`[required]` field and set `submitButton.disabled = !allValid` when a
submit button exists; returns the updated form and `allValid`. -/
def validateFormFields (form : Form) : Form × Bool :=
  let s := sweepFields form.fields
  ({ form with
      fields := s.1
      submitDisabled := form.submitDisabled.map (fun _ => !s.2) }, s.2)

/-- A JavaScript value reaching `showToast`: a string, or a non-string
carrying the text that template interpolation would produce for it. -/
inductive JSVal where
  | str : String → JSVal
  | nonString : String → JSVal
deriving DecidableEq

/-- Per-character escape map of `escapeHTML` (its regex replaces exactly
these five characters, one at a time). -/
def escapeChar (c : Char) : List Char :=
  if c = '&' then "&amp;".data
  else if c = '<' then "&lt;".data
  else if c = '>' then "&gt;".data
  else if c = Char.ofNat 34 then "&quot;".data
  else if c = Char.ofNat 39 then "&#039;".data
  else [c]

/-- Character-wise escape of a character list. -/
def escChars : List Char → List Char
  | [] => []
  | c :: cs => escapeChar c ++ escChars cs

/-- String-typed branch of `escapeHTML`: global single-character regex
replacement is character-wise substitution. -/
def escapeHTMLstring (s : String) : String :=
  ⟨escChars s.data⟩

/-- `escapeHTML(text)`: non-strings are returned as-is. -/
def escapeHTML : JSVal → JSVal
  | .str s => .str (escapeHTMLstring s)
  | .nonString r => .nonString r

/-- Template interpolation of a JavaScript value into the toast markup. -/
def interp : JSVal → String
  | .str s => s
  | .nonString r => r

/-- The text inserted into the `.toast-body` element by `showToast`:
the interpolation of `escapeHTML(message)`. -/
def toastBodyContent (message : JSVal) : String :=
  interp (escapeHTML message)

/-- The toast markup built by `showToast` (whitespace normalised),
parameterised by the pieces that vary per call. -/
def toastHTML (toastId bg icon title : String) (message : JSVal) : String :=
  "<div id=\"" ++ toastId ++ "\" class=\"toast\" role=\"alert\" aria-live=\"assertive\" aria-atomic=\"true\">"
    ++ "<div class=\"toast-header " ++ bg ++ " text-white\">"
    ++ "<i class=\"bi " ++ icon ++ " me-2\"></i>"
    ++ "<strong class=\"me-auto\">" ++ title ++ "</strong>"
    ++ "<button type=\"button\" class=\"btn-close btn-close-white\" data-bs-dismiss=\"toast\" aria-label=\"Close\"></button>"
    ++ "</div>"
    ++ "<div class=\"toast-body\">" ++ toastBodyContent message ++ "</div>"
    ++ "</div>"

/-! Concrete fixtures used by witnesses and counterexamples. -/

/-- A validator that always passes. -/
def vPass : Validator := fun _ _ _ => { valid := true, message := "" }

/-- A validator that always fails with a fixed message. -/
def vFail : Validator := fun _ _ _ => { valid := false, message := "bad value" }

/-- A validator that fails with an empty message (a legal result record). -/
def vFailEmpty : Validator := fun _ _ _ => { valid := false, message := "" }

/-- A registry holding the three fixture validators. -/
def regFix : Registry := [("pass", vPass), ("fail", vFail), ("failEmpty", vFailEmpty)]

/-- A natively valid text input named `f` with a stale feedback sibling. -/
def inputFix : Input :=
  { name := "f", value := "x", typ := "text", required := true, nativeOk := true
    customValidity := "", classes := [], feedback := some "stale" }

/-- A field builder for date-range forms. -/
def dateInput (name value : String) : Input :=
  { name := name, value := value, typ := "text", required := false, nativeOk := true
    customValidity := "", classes := [], feedback := none }

/-- A form holding the given fields, no classes, an enabled submit button. -/
def formOf (fields : List Input) : Form :=
  { fields := fields, classes := [], submitDisabled := some false }

/-- A concrete date parser: `A` parses to time 1, `B` to time 2,
everything else is an Invalid Date. -/
def parseAB : String → Option Int :=
  fun s => if s = "A" then some 1 else if s = "B" then some 2 else none

/-- Options naming the `s`/`e` fields for `dateRange`. -/
def optsSE : Options := { startField := "s", endField := "e", message := "" }

/-- A required, empty, touched text input (carries the touched marker). -/
def inputTouchedEmpty : Input :=
  { name := "t", value := "", typ := "text", required := true, nativeOk := true
    customValidity := "", classes := ["was-validated-field"], feedback := none }

/-! Helper lemmas on class lists and field state transitions. -/

theorem mem_addClass_iff (cs : List String) (c a : String) :
    a ∈ addClass cs c ↔ a ∈ cs ∨ a = c := by
  by_cases h : c ∈ cs <;> simp [addClass, h]
  exact fun hc => hc ▸ h

theorem mem_removeClass_iff (cs : List String) (c a : String) :
    a ∈ removeClass cs c ↔ a ∈ cs ∧ a ≠ c := by
  simp [removeClass, List.mem_filter]

theorem applyInvalidState_classes (input : Input) (m : String) :
    "is-invalid" ∈ (applyInvalidState input m).classes
    ∧ "is-valid" ∉ (applyInvalidState input m).classes := by
  unfold applyInvalidState
  by_cases hm : m = "" <;>
    simp [hm, mem_addClass_iff, mem_removeClass_iff]

theorem applyInvalidState_customValidity (input : Input) (m : String)
    (h : input.customValidity = "") :
    (applyInvalidState input m).customValidity = m := by
  unfold applyInvalidState
  by_cases hm : m = "" <;> simp [hm, h]

theorem applyInvalidState_empty_frame (input : Input) :
    (applyInvalidState input "").customValidity = input.customValidity
    ∧ (applyInvalidState input "").feedback = input.feedback := by
  simp [applyInvalidState]

theorem applyInvalidState_feedback (input : Input) (m : String) (h : m ≠ "") :
    (applyInvalidState input m).feedback = input.feedback.map (fun _ => m) := by
  simp [applyInvalidState, h]

theorem applyValidState_classes (input : Input) :
    "is-valid" ∈ (applyValidState input).classes
    ∧ "is-invalid" ∉ (applyValidState input).classes
    ∧ (applyValidState input).customValidity = "" := by
  simp [applyValidState, mem_addClass_iff, mem_removeClass_iff]

/-! Registry lemmas. -/

theorem getValidator_registerValidator_self (m : Registry) (k : String) (v : Validator) :
    getValidator (registerValidator m k v) k = some v := by
  induction m with
  | nil => simp [registerValidator, getValidator]
  | cons kv rest ih =>
    obtain ⟨k', v'⟩ := kv
    by_cases h : k' = k
    · simp [registerValidator, h, getValidator]
    · simp [registerValidator, h, getValidator, ih]

theorem mem_keys_registerValidator (m : Registry) (k : String) (v : Validator) (a : String) :
    a ∈ (registerValidator m k v).map Prod.fst ↔ a ∈ m.map Prod.fst ∨ a = k := by
  induction m with
  | nil => simp [registerValidator]
  | cons kv rest ih =>
    obtain ⟨k', v'⟩ := kv
    by_cases h : k' = k
    · subst h
      simp [registerValidator]
      tauto
    · simp [registerValidator, h, ih]
      tauto

theorem registerValidator_keys_nodup (m : Registry) (k : String) (v : Validator)
    (h : (m.map Prod.fst).Nodup) :
    ((registerValidator m k v).map Prod.fst).Nodup := by
  induction m with
  | nil => simp [registerValidator]
  | cons kv rest ih =>
    obtain ⟨k', v'⟩ := kv
    simp only [List.map_cons, List.nodup_cons] at h
    by_cases hk : k' = k
    · subst hk
      simpa [registerValidator] using h
    · have := ih h.2
      simp only [registerValidator, hk, if_false, List.map_cons, List.nodup_cons]
      refine ⟨?_, this⟩
      rw [mem_keys_registerValidator]
      rintro (hmem | rfl)
      · exact h.1 hmem
      · exact hk rfl

theorem foldl_registerValidator_nodup (ops : List (String × Validator)) (m : Registry)
    (h : (m.map Prod.fst).Nodup) :
    (((ops.foldl (fun acc p => registerValidator acc p.1 p.2) m)).map Prod.fst).Nodup := by
  induction ops generalizing m with
  | nil => simpa using h
  | cons p rest ih =>
    exact ih _ (registerValidator_keys_nodup m p.1 p.2 h)

/-! Claim C8. -/

/-- C8: after `registerValidator(name, fn1)`, `getValidator(name)` returns
exactly `fn1`; a subsequent `registerValidator(name, fn2)` makes
`getValidator(name)` return `fn2` (last-write-wins); registration
preserves key uniqueness, and any registry built by a sequence of
registrations from the empty map never holds two entries under the same
name simultaneously. -/
theorem registry_last_write_wins (registry : Registry) (name : String) (fn1 fn2 : Validator) :
    getValidator (registerValidator registry name fn1) name = some fn1
    ∧ getValidator (registerValidator (registerValidator registry name fn1) name fn2) name
        = some fn2
    ∧ ((registry.map Prod.fst).Nodup →
        ((registerValidator registry name fn1).map Prod.fst).Nodup)
    ∧ ∀ ops : List (String × Validator),
        ((ops.foldl (fun acc p => registerValidator acc p.1 p.2) ([] : Registry)).map
            Prod.fst).Nodup := by
  refine ⟨getValidator_registerValidator_self _ _ _,
    getValidator_registerValidator_self _ _ _,
    registerValidator_keys_nodup _ _ _,
    fun ops => foldl_registerValidator_nodup ops [] (by simp)⟩

/-- Witness for C8 at a concrete registry and concrete validators. -/
theorem registry_last_write_wins_witness :
    getValidator (registerValidator [] "phone" vPass) "phone" = some vPass
    ∧ getValidator (registerValidator (registerValidator [] "phone" vPass) "phone" vFail)
        "phone" = some vFail
    ∧ ((registerValidator ([] : Registry) "phone" vPass).map Prod.fst).Nodup := by
  obtain ⟨h1, h2, h3, _⟩ := registry_last_write_wins [] "phone" vPass vFail
  exact ⟨h1, h2, h3 (by simp)⟩

/-! Claim C10. -/

/-- C10: an input whose custom-validity message is non-empty fails the
native validity check, so `runValidators` returns false through the
native branch, invokes no configured validator, and leaves the
custom-validity message unchanged; the field is styled invalid, and
`clearValidationState` is an operation that clears the message. -/
theorem runValidators_nonempty_customValidity (registry : Registry) (input : Input)
    (configs : List VConfig) (form : Form) (h : input.customValidity ≠ "") :
    checkValidity input = false
    ∧ (runValidators registry input configs form).ok = false
    ∧ (runValidators registry input configs form).invoked = []
    ∧ (runValidators registry input configs form).input.customValidity = input.customValidity
    ∧ "is-invalid" ∈ (runValidators registry input configs form).input.classes
    ∧ "is-valid" ∉ (runValidators registry input configs form).input.classes
    ∧ (clearValidationState (runValidators registry input configs form).input).customValidity
        = "" := by
  have hcv : checkValidity input = false := by
    simp [checkValidity, h]
  have hrun : runValidators registry input configs form
      = { ok := false, input := applyInvalidState input "", invoked := [], warnings := [] } := by
    simp [runValidators, hcv]
  refine ⟨hcv, by simp [hrun], by simp [hrun], ?_, ?_, ?_, ?_⟩
  · rw [hrun]
    exact (applyInvalidState_empty_frame input).1
  · rw [hrun]
    exact (applyInvalidState_classes input "").1
  · rw [hrun]
    exact (applyInvalidState_classes input "").2
  · simp [clearValidationState]

/-- Witness for C10 at a concrete input carrying message `boom`. -/
theorem runValidators_nonempty_customValidity_witness :
    checkValidity { inputFix with customValidity := "boom" } = false
    ∧ (runValidators regFix { inputFix with customValidity := "boom" }
        [VConfig.bare "pass"] (formOf [])).ok = false
    ∧ (runValidators regFix { inputFix with customValidity := "boom" }
        [VConfig.bare "pass"] (formOf [])).invoked = []
    ∧ (runValidators regFix { inputFix with customValidity := "boom" }
        [VConfig.bare "pass"] (formOf [])).input.customValidity
        = ({ inputFix with customValidity := "boom" } : Input).customValidity
    ∧ "is-invalid" ∈ (runValidators regFix { inputFix with customValidity := "boom" }
        [VConfig.bare "pass"] (formOf [])).input.classes
    ∧ "is-valid" ∉ (runValidators regFix { inputFix with customValidity := "boom" }
        [VConfig.bare "pass"] (formOf [])).input.classes
    ∧ (clearValidationState (runValidators regFix { inputFix with customValidity := "boom" }
        [VConfig.bare "pass"] (formOf [])).input).customValidity = "" :=
  runValidators_nonempty_customValidity regFix { inputFix with customValidity := "boom" }
    [VConfig.bare "pass"] (formOf []) (by decide)

/-! Claim C7. -/

/-- C7: when every configured validator name is unregistered and the
input is natively valid, `runValidators` emits one diagnostic per entry,
skips them all without counting them as failures, invokes no validator,
marks the field valid and returns true; the registry lookup is total
(an `Option`, never an exception). -/
theorem runValidators_skips_unregistered (registry : Registry) (input : Input)
    (configs : List VConfig) (form : Form)
    (hvalid : checkValidity input = true)
    (hunreg : ∀ c ∈ configs, getValidator registry (configName c) = none) :
    (runValidators registry input configs form).ok = true
    ∧ (runValidators registry input configs form).invoked = []
    ∧ (runValidators registry input configs form).warnings = configs.map configName
    ∧ (runValidators registry input configs form).input = applyValidState input
    ∧ "is-valid" ∈ (runValidators registry input configs form).input.classes
    ∧ "is-invalid" ∉ (runValidators registry input configs form).input.classes
    ∧ (runValidators registry input configs form).input.customValidity = "" := by
  have hloop : ∀ cs : List VConfig, (∀ c ∈ cs, getValidator registry (configName c) = none) →
      runLoop registry input form cs
        = { ok := true, input := applyValidState input, invoked := []
            warnings := cs.map configName } := by
    intro cs
    induction cs with
    | nil => intro _; rfl
    | cons c rest ih =>
      intro h
      have hc := h c (List.mem_cons_self c rest)
      have hrest := ih (fun c' hc' => h c' (List.mem_cons_of_mem c hc'))
      simp [runLoop, hc, hrest]
  have hrun : runValidators registry input configs form
      = { ok := true, input := applyValidState input, invoked := []
          warnings := configs.map configName } := by
    simp [runValidators, hvalid, hloop configs hunreg]
  refine ⟨by simp [hrun], by simp [hrun], by simp [hrun], by simp [hrun], ?_, ?_, ?_⟩
  · rw [hrun]
    exact (applyValidState_classes input).1
  · rw [hrun]
    exact (applyValidState_classes input).2.1
  · rw [hrun]
    exact (applyValidState_classes input).2.2

/-- Witness for C7: two unregistered names on a natively valid field. -/
theorem runValidators_skips_unregistered_witness :
    (runValidators regFix inputFix [VConfig.bare "nope1", VConfig.bare "nope2"]
        (formOf [])).ok = true
    ∧ (runValidators regFix inputFix [VConfig.bare "nope1", VConfig.bare "nope2"]
        (formOf [])).invoked = []
    ∧ (runValidators regFix inputFix [VConfig.bare "nope1", VConfig.bare "nope2"]
        (formOf [])).warnings
        = [VConfig.bare "nope1", VConfig.bare "nope2"].map configName
    ∧ (runValidators regFix inputFix [VConfig.bare "nope1", VConfig.bare "nope2"]
        (formOf [])).input = applyValidState inputFix
    ∧ "is-valid" ∈ (runValidators regFix inputFix [VConfig.bare "nope1", VConfig.bare "nope2"]
        (formOf [])).input.classes
    ∧ "is-invalid" ∉ (runValidators regFix inputFix
        [VConfig.bare "nope1", VConfig.bare "nope2"] (formOf [])).input.classes
    ∧ (runValidators regFix inputFix [VConfig.bare "nope1", VConfig.bare "nope2"]
        (formOf [])).input.customValidity = "" :=
  runValidators_skips_unregistered regFix inputFix
    [VConfig.bare "nope1", VConfig.bare "nope2"] (formOf []) (by decide)
    (by intro c hc; fin_cases hc <;> rfl)

/-! Claim C1. -/

theorem checkValidity_customValidity (input : Input) (h : checkValidity input = true) :
    input.customValidity = "" := by
  simp [checkValidity] at h
  exact h.2

/-- C1 (amended): on a natively valid input, when every registered
validator before `c` passes and `c`'s validator fails with message `m`,
`runValidators` behaves exactly as if the entries after `c` were absent
(none of them is resolved or invoked), returns false, styles the field
invalid, sets `m` as the custom-validity message, and mirrors `m` into
the sibling feedback element when one is present, provided `m` is
non-empty; the invoked validators are exactly the registered entries up
to and including `c`. -/
theorem runValidators_first_failure_short_circuits
    (registry : Registry) (input : Input) (form : Form)
    (pre post : List VConfig) (c : VConfig) (validator : Validator) (m : String)
    (hvalid : checkValidity input = true)
    (hpre : ∀ c' ∈ pre, ∀ v', getValidator registry (configName c') = some v' →
        (v' input.value (configOptions c') form).valid = true)
    (hc : getValidator registry (configName c) = some validator)
    (hfail : validator input.value (configOptions c) form = { valid := false, message := m }) :
    runValidators registry input (pre ++ c :: post) form
      = runValidators registry input (pre ++ [c]) form
    ∧ (runValidators registry input (pre ++ c :: post) form).ok = false
    ∧ (runValidators registry input (pre ++ c :: post) form).input.customValidity = m
    ∧ "is-invalid" ∈ (runValidators registry input (pre ++ c :: post) form).input.classes
    ∧ "is-valid" ∉ (runValidators registry input (pre ++ c :: post) form).input.classes
    ∧ (m ≠ "" → (runValidators registry input (pre ++ c :: post) form).input.feedback
        = input.feedback.map (fun _ => m))
    ∧ (runValidators registry input (pre ++ c :: post) form).invoked
        = registeredNames registry pre ++ [configName c] := by
  have key : ∀ pre' : List VConfig,
      (∀ c' ∈ pre', ∀ v', getValidator registry (configName c') = some v' →
          (v' input.value (configOptions c') form).valid = true) →
      ∀ post' : List VConfig,
      runLoop registry input form (pre' ++ c :: post')
          = { ok := false, input := applyInvalidState input m
              invoked := registeredNames registry pre' ++ [configName c]
              warnings := unregisteredNames registry pre' } := by
    intro pre'
    induction pre' with
    | nil =>
      intro _ post'
      simp [runLoop, hc, hfail, registeredNames, unregisteredNames]
    | cons c' rest ih =>
      intro h post'
      have hrest := ih (fun x hx => h x (List.mem_cons_of_mem c' hx)) post'
      cases hreg : getValidator registry (configName c') with
      | none =>
        simp [runLoop, hreg, hrest, registeredNames, unregisteredNames]
      | some v' =>
        have hv' := h c' (List.mem_cons_self c' rest) v' hreg
        simp [runLoop, hreg, hv', hrest, registeredNames, unregisteredNames]
  have hrv : ∀ cs, runValidators registry input cs form = runLoop registry input form cs := by
    intro cs
    simp [runValidators, hvalid]
  have hfull := key pre hpre post
  have hone : runLoop registry input form (pre ++ [c])
      = { ok := false, input := applyInvalidState input m
          invoked := registeredNames registry pre ++ [configName c]
          warnings := unregisteredNames registry pre } := key pre hpre []
  refine ⟨?_, ?_, ?_, ?_, ?_, ?_, ?_⟩
  · rw [hrv, hrv, hfull, hone]
  · rw [hrv, hfull]
  · rw [hrv, hfull]
    exact applyInvalidState_customValidity input m (checkValidity_customValidity input hvalid)
  · rw [hrv, hfull]
    exact (applyInvalidState_classes input m).1
  · rw [hrv, hfull]
    exact (applyInvalidState_classes input m).2
  · intro hm
    rw [hrv, hfull]
    exact applyInvalidState_feedback input m hm
  · rw [hrv, hfull]

/-- Witness for C1: `pass` passes, `fail` fails with `bad value`, and a
second `pass` entry sits after the failing one. -/
theorem runValidators_first_failure_short_circuits_witness :
    runValidators regFix inputFix
        ([VConfig.bare "pass"] ++ VConfig.bare "fail" :: [VConfig.bare "pass"]) (formOf [])
      = runValidators regFix inputFix ([VConfig.bare "pass"] ++ [VConfig.bare "fail"])
          (formOf [])
    ∧ (runValidators regFix inputFix
        ([VConfig.bare "pass"] ++ VConfig.bare "fail" :: [VConfig.bare "pass"])
        (formOf [])).ok = false
    ∧ (runValidators regFix inputFix
        ([VConfig.bare "pass"] ++ VConfig.bare "fail" :: [VConfig.bare "pass"])
        (formOf [])).input.customValidity = "bad value"
    ∧ "is-invalid" ∈ (runValidators regFix inputFix
        ([VConfig.bare "pass"] ++ VConfig.bare "fail" :: [VConfig.bare "pass"])
        (formOf [])).input.classes
    ∧ "is-valid" ∉ (runValidators regFix inputFix
        ([VConfig.bare "pass"] ++ VConfig.bare "fail" :: [VConfig.bare "pass"])
        (formOf [])).input.classes
    ∧ (runValidators regFix inputFix
        ([VConfig.bare "pass"] ++ VConfig.bare "fail" :: [VConfig.bare "pass"])
        (formOf [])).input.feedback = inputFix.feedback.map (fun _ => "bad value")
    ∧ (runValidators regFix inputFix
        ([VConfig.bare "pass"] ++ VConfig.bare "fail" :: [VConfig.bare "pass"])
        (formOf [])).invoked
        = registeredNames regFix [VConfig.bare "pass"] ++ [configName (VConfig.bare "fail")] := by
  have h := runValidators_first_failure_short_circuits regFix inputFix (formOf [])
    [VConfig.bare "pass"] [VConfig.bare "pass"] (VConfig.bare "fail") vFail "bad value"
    (by decide)
    (by intro c' hc' v' hv'
        fin_cases hc'
        simp [getValidator, regFix, configName] at hv'
        rw [← hv']
        rfl)
    (by rfl) (by rfl)
  exact ⟨h.1, h.2.1, h.2.2.1, h.2.2.2.1, h.2.2.2.2.1,
    h.2.2.2.2.2.1 (by decide), h.2.2.2.2.2.2⟩

/-- C1 counterexample: a failing validator returning an empty message
leaves the sibling feedback element's stale text in place — the claimed
unconditional mirroring into the feedback element does not happen. -/
theorem runValidators_empty_message_not_mirrored :
    (runValidators regFix inputFix [VConfig.bare "failEmpty"] (formOf [])).ok = false
    ∧ vFailEmpty inputFix.value (configOptions (VConfig.bare "failEmpty")) (formOf [])
        = { valid := false, message := "" }
    ∧ inputFix.feedback = some "stale"
    ∧ (runValidators regFix inputFix [VConfig.bare "failEmpty"]
        (formOf [])).input.feedback = some "stale"
    ∧ some "stale" ≠ some ("" : String) := by
  refine ⟨by decide, rfl, rfl, by decide, by decide⟩

/-! Claim C2. -/

theorem applyInvalidState_name (input : Input) (m : String) :
    (applyInvalidState input m).name = input.name := by
  unfold applyInvalidState
  by_cases hm : m = "" <;> simp [hm]

theorem runLoop_input_name (registry : Registry) (input : Input) (form : Form)
    (cs : List VConfig) : (runLoop registry input form cs).input.name = input.name := by
  induction cs with
  | nil => simp [runLoop, applyValidState]
  | cons c rest ih =>
    cases hreg : getValidator registry (configName c) with
    | none => simp [runLoop, hreg, ih]
    | some v =>
      by_cases hv : (v input.value (configOptions c) form).valid <;>
        simp [runLoop, hreg, hv, ih, applyInvalidState_name]

theorem runValidators_input_name (registry : Registry) (input : Input)
    (cs : List VConfig) (form : Form) :
    (runValidators registry input cs form).input.name = input.name := by
  unfold runValidators
  by_cases h : checkValidity input <;> simp [h, runLoop_input_name, applyInvalidState_name]

theorem replaceField_names (fs : List Input) (n : String) (i : Input) (h : i.name = n) :
    (replaceField fs n i).map Input.name = fs.map Input.name := by
  induction fs with
  | nil => rfl
  | cons x xs ih =>
    by_cases hx : x.name = n
    · simp [replaceField, hx, h]
    · simp [replaceField, hx, ih]

theorem find?_name_isSome (fs : List Input) (n : String) :
    (fs.find? (fun i => i.name = n)).isSome ↔ n ∈ fs.map Input.name := by
  induction fs with
  | nil => simp
  | cons x xs ih =>
    by_cases hx : x.name = n
    · simp [List.find?_cons, hx]
    · simp [List.find?_cons, hx, ih]
      exact fun h => (hx h.symm).elim

theorem vfwcLoop_spec (registry : Registry) (l : List (String × List VConfig)) :
    ∀ (form : Form) (acc : Bool),
      (vfwcLoop registry form acc l).1.fields.map Input.name = form.fields.map Input.name
      ∧ (vfwcLoop registry form acc l).1.classes = form.classes
      ∧ (vfwcLoop registry form acc l).2.1
          = (acc && ((vfwcLoop registry form acc l).2.2.2.all id))
      ∧ (vfwcLoop registry form acc l).2.2.1
          = (l.map Prod.fst).filter (fun n => n ∈ form.fields.map Input.name)
      ∧ (vfwcLoop registry form acc l).2.2.2.length
          = (vfwcLoop registry form acc l).2.2.1.length := by
  induction l with
  | nil => intro form acc; simp [vfwcLoop]
  | cons entry rest ih =>
    intro form acc
    obtain ⟨fieldName, configs⟩ := entry
    cases hfind : form.fields.find? (fun i => i.name = fieldName) with
    | none =>
      have hnot : fieldName ∉ form.fields.map Input.name := by
        rw [← find?_name_isSome]
        simp [hfind]
      have hpredf : decide (fieldName ∈ form.fields.map Input.name) = false := by
        simpa using hnot
      have hih := ih form acc
      simp only [vfwcLoop, hfind]
      refine ⟨hih.1, hih.2.1, hih.2.2.1, ?_, hih.2.2.2.2⟩
      rw [hih.2.2.2.1]
      simp only [List.map_cons, List.filter_cons, hpredf]
      simp
    | some input =>
      have hmem : fieldName ∈ form.fields.map Input.name := by
        rw [← find?_name_isSome, hfind]
        rfl
      have hpredt : decide (fieldName ∈ form.fields.map Input.name) = true := by
        simpa using hmem
      have hname : input.name = fieldName := by
        have := List.find?_some hfind
        simpa using this
      set r := runValidators registry input configs form with hr
      have hrname : r.input.name = fieldName := by
        rw [hr, runValidators_input_name]
        exact hname
      set form' : Form := { form with fields := replaceField form.fields fieldName r.input }
        with hform'
      have hnames' : form'.fields.map Input.name = form.fields.map Input.name := by
        rw [hform']
        exact replaceField_names form.fields fieldName r.input hrname
      have hacc : (if r.ok then acc else false) = (acc && r.ok) := by
        cases r.ok <;> simp
      have hih := ih form' (if r.ok then acc else false)
      simp only [vfwcLoop, hfind, ← hr, ← hform']
      refine ⟨by rw [hih.1, hnames'], by rw [hih.2.1], ?_, ?_, ?_⟩
      · rw [hih.2.2.1, hacc]
        simp [Bool.and_assoc]
      · rw [hih.2.2.2.1, hnames']
        simp only [List.map_cons, List.filter_cons, hpredt]
        simp
      · simp only [List.length_cons]
        rw [hih.2.2.2.2]

/-- C2: `validateFormWithCustom` invokes the runner exactly on the map
entries whose field exists in the form, in map order, whether or not the
native form-level check failed (no early return); entries without a
matching field are skipped; the returned boolean is the conjunction of
the native form-level validity and all per-field runner results. -/
theorem validateFormWithCustom_total (registry : Registry) (form : Form)
    (fieldValidators : List (String × List VConfig)) :
    (validateFormWithCustom registry form fieldValidators).evaluated
        = (fieldValidators.map Prod.fst).filter
            (fun n => (form.fields.find? (fun i => i.name = n)).isSome)
    ∧ (validateFormWithCustom registry form fieldValidators).ok
        = (formCheckValidity form
            && ((validateFormWithCustom registry form fieldValidators).results.all id))
    ∧ (validateFormWithCustom registry form fieldValidators).results.length
        = (validateFormWithCustom registry form fieldValidators).evaluated.length := by
  have hok : (validateFormWithCustom registry form fieldValidators).ok
      = (vfwcLoop registry
          (if formCheckValidity form then form
            else { form with classes := addClass form.classes "was-validated" })
          (formCheckValidity form) fieldValidators).2.1 := rfl
  have hev : (validateFormWithCustom registry form fieldValidators).evaluated
      = (vfwcLoop registry
          (if formCheckValidity form then form
            else { form with classes := addClass form.classes "was-validated" })
          (formCheckValidity form) fieldValidators).2.2.1 := rfl
  have hres : (validateFormWithCustom registry form fieldValidators).results
      = (vfwcLoop registry
          (if formCheckValidity form then form
            else { form with classes := addClass form.classes "was-validated" })
          (formCheckValidity form) fieldValidators).2.2.2 := rfl
  set form1 := if formCheckValidity form then form
    else { form with classes := addClass form.classes "was-validated" } with hform1
  have hfields1 : form1.fields = form.fields := by
    rw [hform1]
    cases formCheckValidity form <;> rfl
  have h := vfwcLoop_spec registry fieldValidators form1 (formCheckValidity form)
  have hps : ∀ n : String,
      (fun m => decide (m ∈ form.fields.map Input.name)) n
        = (fun m => (form.fields.find? (fun i => i.name = m)).isSome) n := by
    intro n
    by_cases hmem : n ∈ form.fields.map Input.name
    · simp [hmem, (find?_name_isSome form.fields n).mpr hmem]
    · have hno : ¬ (form.fields.find? (fun i => i.name = n)).isSome = true :=
        fun hh => hmem ((find?_name_isSome form.fields n).mp hh)
      simp only [Bool.not_eq_true] at hno
      simp [hmem, hno]
  refine ⟨?_, ?_, ?_⟩
  · rw [hev, h.2.2.2.1, hfields1]
    exact List.filter_congr (fun n _ => hps n)
  · rw [hok, hres, h.2.2.1]
  · rw [hres, hev, h.2.2.2.2]

/-! Claim C4. -/

theorem mem_addClass_self (cs : List String) (c : String) : c ∈ addClass cs c := by
  by_cases h : c ∈ cs <;> simp [addClass, h]

/-- C4 counterexample: calling `validateFormWithCustom` on a natively
valid form with no custom validators returns true and does NOT mark the
form `was-validated` — the marker is not applied regardless of outcome. -/
theorem validateFormWithCustom_valid_no_was_validated :
    (validateFormWithCustom [] (formOf []) []).ok = true
    ∧ "was-validated" ∉ (validateFormWithCustom [] (formOf []) []).form.classes := by
  decide

/-- C4 (amended): after `validateFormWithCustom`, the form carries the
`was-validated` marker if and only if the overall result is false or the
form already carried the marker before the call; a fully valid run adds
no marker. -/
theorem validateFormWithCustom_was_validated (registry : Registry) (form : Form)
    (fieldValidators : List (String × List VConfig)) :
    "was-validated" ∈ (validateFormWithCustom registry form fieldValidators).form.classes
    ↔ ((validateFormWithCustom registry form fieldValidators).ok = false
        ∨ "was-validated" ∈ form.classes) := by
  have hform : (validateFormWithCustom registry form fieldValidators).form
      = (if (vfwcLoop registry
            (if formCheckValidity form then form
              else { form with classes := addClass form.classes "was-validated" })
            (formCheckValidity form) fieldValidators).2.1
          then (vfwcLoop registry
            (if formCheckValidity form then form
              else { form with classes := addClass form.classes "was-validated" })
            (formCheckValidity form) fieldValidators).1
          else { (vfwcLoop registry
            (if formCheckValidity form then form
              else { form with classes := addClass form.classes "was-validated" })
            (formCheckValidity form) fieldValidators).1 with
              classes := addClass (vfwcLoop registry
                (if formCheckValidity form then form
                  else { form with classes := addClass form.classes "was-validated" })
                (formCheckValidity form) fieldValidators).1.classes "was-validated" }) := rfl
  have hok : (validateFormWithCustom registry form fieldValidators).ok
      = (vfwcLoop registry
          (if formCheckValidity form then form
            else { form with classes := addClass form.classes "was-validated" })
          (formCheckValidity form) fieldValidators).2.1 := rfl
  set form1 := if formCheckValidity form then form
    else { form with classes := addClass form.classes "was-validated" } with hform1
  have h := vfwcLoop_spec registry fieldValidators form1 (formCheckValidity form)
  cases hall : (vfwcLoop registry form1 (formCheckValidity form) fieldValidators).2.1 with
  | true =>
    have hnative : formCheckValidity form = true := by
      have hx := h.2.2.1
      rw [hall] at hx
      cases hn : formCheckValidity form
      · rw [hn] at hx
        simp at hx
      · rfl
    have hcl : (vfwcLoop registry form1 (formCheckValidity form) fieldValidators).1.classes
        = form.classes := by
      rw [h.2.1, hform1, hnative, if_pos rfl]
    rw [hform, hok, hall, if_pos rfl, hcl]
    simp
  | false =>
    rw [hform, hok, hall, if_neg (by simp)]
    simp [mem_addClass_self]

/-! Claim C6. -/

theorem sweepFields_spec (fs : List Input) :
    (sweepFields fs).1 = fs.map (fun i => if i.required then (sweepInput i).1 else i)
    ∧ (sweepFields fs).2 = fs.all (fun i => !i.required || (sweepInput i).2) := by
  induction fs with
  | nil => simp [sweepFields]
  | cons i rest ih =>
    by_cases hreq : i.required <;>
      simp [sweepFields, hreq, ih.1, ih.2]

theorem sweepInput_complete (input : Input) :
    (sweepInput input).2
      = (if input.typ = "select-one" then decide (input.value ≠ "")
          else decide (trimString input.value ≠ "")) := by
  unfold sweepInput
  by_cases ht : input.typ = "select-one"
  · by_cases hv : input.value = "" <;> simp [ht, hv]
  · by_cases hv : trimString input.value = "" <;> simp [ht, hv]

theorem sweepInput_classes_complete (input : Input) (h : (sweepInput input).2 = true) :
    "is-valid" ∈ (sweepInput input).1.classes
    ∧ "is-invalid" ∉ (sweepInput input).1.classes := by
  unfold sweepInput at h ⊢
  by_cases ht : input.typ = "select-one"
  · by_cases hv : input.value = "" <;>
      simp [ht, hv, mem_addClass_iff, mem_removeClass_iff] at h ⊢
  · by_cases hv : trimString input.value = "" <;>
      simp [ht, hv, mem_addClass_iff, mem_removeClass_iff] at h ⊢

theorem sweepInput_classes_incomplete_touched (input : Input)
    (h : (sweepInput input).2 = false) (ht : "was-validated-field" ∈ input.classes) :
    "is-invalid" ∈ (sweepInput input).1.classes
    ∧ "is-valid" ∉ (sweepInput input).1.classes := by
  have hmem : "was-validated-field" ∈ removeClass input.classes "is-valid" := by
    rw [mem_removeClass_iff]
    exact ⟨ht, by decide⟩
  unfold sweepInput at h ⊢
  by_cases hty : input.typ = "select-one"
  · by_cases hv : input.value = "" <;>
      simp [hty, hv, hmem, mem_addClass_iff, mem_removeClass_iff] at h ⊢
  · by_cases hv : trimString input.value = "" <;>
      simp [hty, hv, hmem, mem_addClass_iff, mem_removeClass_iff] at h ⊢

theorem sweepInput_classes_incomplete_untouched (input : Input)
    (h : (sweepInput input).2 = false) (ht : "was-validated-field" ∉ input.classes) :
    "is-valid" ∉ (sweepInput input).1.classes
    ∧ ("is-invalid" ∈ (sweepInput input).1.classes ↔ "is-invalid" ∈ input.classes) := by
  have hmem : "was-validated-field" ∉ removeClass input.classes "is-valid" := by
    rw [mem_removeClass_iff]
    exact fun hx => ht hx.1
  unfold sweepInput at h ⊢
  by_cases hty : input.typ = "select-one"
  · by_cases hv : input.value = "" <;>
      simp [hty, hv, hmem, mem_addClass_iff, mem_removeClass_iff] at h ⊢
  · by_cases hv : trimString input.value = "" <;>
      simp [hty, hv, hmem, mem_addClass_iff, mem_removeClass_iff] at h ⊢

/-- C6 counterexample: a required, non-empty text field that was never
touched (no `was-validated-field` marker) nevertheless receives the
`is-valid` style from the completeness sweep — style toggling is not
restricted to touched fields. -/
theorem validateFormFields_untouched_gets_is_valid :
    inputFix.required = true
    ∧ "was-validated-field" ∉ inputFix.classes
    ∧ (validateFormFields (formOf [inputFix])).1.fields.map Input.classes = [["is-valid"]] := by
  decide

/-- C6 (amended): the completeness sweep computes per-required-field
non-emptiness (select fields: a selected value; text fields:
non-whitespace content), enables the submit control iff every required
field is non-empty, and updates exactly the required fields: a complete
field is styled valid (touched or not), an incomplete touched field is
styled invalid, and an incomplete untouched field only has its valid
style removed (its invalid style is neither added nor removed). -/
theorem validateFormFields_behavior (form : Form) :
    (validateFormFields form).2
        = form.fields.all (fun i => !i.required || (sweepInput i).2)
    ∧ (validateFormFields form).1.fields
        = form.fields.map (fun i => if i.required then (sweepInput i).1 else i)
    ∧ (validateFormFields form).1.submitDisabled
        = form.submitDisabled.map (fun _ => !(validateFormFields form).2)
    ∧ (validateFormFields form).1.classes = form.classes
    ∧ (∀ i : Input,
        (sweepInput i).2
          = (if i.typ = "select-one" then decide (i.value ≠ "")
              else decide (trimString i.value ≠ ""))
        ∧ ((sweepInput i).2 = true →
            "is-valid" ∈ (sweepInput i).1.classes
            ∧ "is-invalid" ∉ (sweepInput i).1.classes)
        ∧ ((sweepInput i).2 = false → "was-validated-field" ∈ i.classes →
            "is-invalid" ∈ (sweepInput i).1.classes
            ∧ "is-valid" ∉ (sweepInput i).1.classes)
        ∧ ((sweepInput i).2 = false → "was-validated-field" ∉ i.classes →
            "is-valid" ∉ (sweepInput i).1.classes
            ∧ ("is-invalid" ∈ (sweepInput i).1.classes ↔ "is-invalid" ∈ i.classes))) := by
  have hs := sweepFields_spec form.fields
  refine ⟨?_, ?_, ?_, rfl, ?_⟩
  · show (sweepFields form.fields).2 = _
    exact hs.2
  · show (sweepFields form.fields).1 = _
    exact hs.1
  · rfl
  · intro i
    exact ⟨sweepInput_complete i, sweepInput_classes_complete i,
      sweepInput_classes_incomplete_touched i, sweepInput_classes_incomplete_untouched i⟩

/-- Witness for C6 at a concrete form: the touched empty field is styled
invalid, the untouched filled field styled valid, and the submit button
state reflects overall completeness. -/
theorem validateFormFields_behavior_witness :
    (validateFormFields (formOf [inputFix, inputTouchedEmpty])).2
        = (formOf [inputFix, inputTouchedEmpty]).fields.all
            (fun i => !i.required || (sweepInput i).2)
    ∧ (validateFormFields (formOf [inputFix, inputTouchedEmpty])).1.submitDisabled
        = (formOf [inputFix, inputTouchedEmpty]).submitDisabled.map
            (fun _ => !(validateFormFields (formOf [inputFix, inputTouchedEmpty])).2)
    ∧ ("is-valid" ∈ (sweepInput inputFix).1.classes
        ∧ "is-invalid" ∉ (sweepInput inputFix).1.classes)
    ∧ ("is-invalid" ∈ (sweepInput inputTouchedEmpty).1.classes
        ∧ "is-valid" ∉ (sweepInput inputTouchedEmpty).1.classes) := by
  have h := validateFormFields_behavior (formOf [inputFix, inputTouchedEmpty])
  exact ⟨h.1, h.2.2.1, (h.2.2.2.2 inputFix).2.1 (by decide),
    (h.2.2.2.2 inputTouchedEmpty).2.2.1 (by decide) (by decide)⟩

/-! Claim C3. -/

/-- C3: `dateRange` returns valid when either named field is absent;
valid when either raw value is empty; invalid with message
`Invalid date format` when either non-empty value fails to parse; and
otherwise valid iff the end date-time is strictly after the start
(equality is invalid). -/
theorem dateRange_cases (parse : String → Option Int) (form : Form) (opts : Options)
    (value : String) :
    ((form.fields.find? (fun i => i.name = opts.startField) = none
        ∨ form.fields.find? (fun i => i.name = opts.endField) = none) →
      dateRange parse value opts form = { valid := true, message := "" })
    ∧ (∀ si ei : Input, form.fields.find? (fun i => i.name = opts.startField) = some si →
        form.fields.find? (fun i => i.name = opts.endField) = some ei →
        ((si.value = "" ∨ ei.value = "") →
          dateRange parse value opts form = { valid := true, message := "" })
        ∧ (si.value ≠ "" → ei.value ≠ "" →
            ((parse si.value = none ∨ parse ei.value = none) →
              dateRange parse value opts form
                = { valid := false, message := "Invalid date format" })
            ∧ (∀ s e : Int, parse si.value = some s → parse ei.value = some e →
                (dateRange parse value opts form).valid = decide (s < e)))) := by
  constructor
  · intro h
    rcases h with h | h
    · simp [dateRange, h]
    · cases hs : form.fields.find? (fun i => i.name = opts.startField) with
      | none => simp [dateRange, hs]
      | some si => simp [dateRange, hs, h]
  · intro si ei hsi hei
    constructor
    · intro hempty
      simp only [dateRange, hsi, hei]
      rw [if_pos hempty]
    · intro hs he
      have hcond : ¬(si.value = "" ∨ ei.value = "") := by tauto
      constructor
      · intro hp
        rcases hp with hp | hp
        · simp only [dateRange, hsi, hei]
          rw [if_neg hcond]
          simp [hp]
        · cases hps : parse si.value with
          | none =>
            simp only [dateRange, hsi, hei]
            rw [if_neg hcond]
            simp [hps]
          | some s =>
            simp only [dateRange, hsi, hei]
            rw [if_neg hcond]
            simp [hps, hp]
      · intro s e hps hpe
        simp only [dateRange, hsi, hei]
        rw [if_neg hcond]
        simp only [hps, hpe]
        by_cases hle : e ≤ s
        · rw [if_pos hle]
          simp [decide_eq_false (not_lt.mpr hle)]
        · rw [if_neg hle]
          simp [not_le.mp hle]

/-- Witness for C3: all four behaviours at concrete forms and parser. -/
theorem dateRange_cases_witness :
    dateRange parseAB "" optsSE (formOf [dateInput "x" "A"])
        = { valid := true, message := "" }
    ∧ dateRange parseAB "" optsSE (formOf [dateInput "s" "", dateInput "e" "B"])
        = { valid := true, message := "" }
    ∧ dateRange parseAB "" optsSE (formOf [dateInput "s" "zz", dateInput "e" "B"])
        = { valid := false, message := "Invalid date format" }
    ∧ (dateRange parseAB "" optsSE
        (formOf [dateInput "s" "A", dateInput "e" "B"])).valid = decide ((1 : Int) < 2) := by
  refine ⟨?_, ?_, ?_, ?_⟩
  · exact (dateRange_cases parseAB (formOf [dateInput "x" "A"]) optsSE "").1
      (Or.inl (by decide))
  · exact ((dateRange_cases parseAB (formOf [dateInput "s" "", dateInput "e" "B"]) optsSE
        "").2 (dateInput "s" "") (dateInput "e" "B") (by decide) (by decide)).1 (Or.inl rfl)
  · exact (((dateRange_cases parseAB (formOf [dateInput "s" "zz", dateInput "e" "B"]) optsSE
        "").2 (dateInput "s" "zz") (dateInput "e" "B") (by decide) (by decide)).2
      (by decide) (by decide)).1 (Or.inl rfl)
  · exact (((dateRange_cases parseAB (formOf [dateInput "s" "A", dateInput "e" "B"]) optsSE
        "").2 (dateInput "s" "A") (dateInput "e" "B") (by decide) (by decide)).2
      (by decide) (by decide)).2 1 2 rfl rfl

/-! Claim C5. -/

/-- C5 counterexample: on empty extracted values, the registry's
`dateRange` reports valid (defers to required-field validation) while
the inlined submit-path `validateDateTimeRange` reports invalid — the
two rules disagree on empty inputs. -/
theorem dateRange_vs_validateDateTimeRange_empty :
    (dateRange parseAB "" optsSE (formOf [dateInput "s" "", dateInput "e" ""])).valid = true
    ∧ (validateDateTimeRange parseAB "" "").valid = false := by
  decide

/-- C5 (amended): whenever both the start and end values are non-empty,
the inlined `validateDateTimeRange` and the registry's `dateRange`
validator (reading the same values from the form) agree on
valid/invalid — including unparseable inputs and the strict
end-after-start comparison; they disagree exactly when a value is empty. -/
theorem dateRange_matches_validateDateTimeRange (parse : String → Option Int)
    (form : Form) (opts : Options) (value : String) (si ei : Input)
    (hsi : form.fields.find? (fun i => i.name = opts.startField) = some si)
    (hei : form.fields.find? (fun i => i.name = opts.endField) = some ei)
    (hs : si.value ≠ "") (he : ei.value ≠ "") :
    (dateRange parse value opts form).valid
      = (validateDateTimeRange parse si.value ei.value).valid := by
  have hcond : ¬(si.value = "" ∨ ei.value = "") := by tauto
  simp only [dateRange, validateDateTimeRange, hsi, hei]
  rw [if_neg hcond, if_neg hcond]
  cases parse si.value with
  | none => simp
  | some s =>
    cases parse ei.value with
    | none => simp
    | some e =>
      by_cases hle : e ≤ s <;> simp [hle]

/-- Witness for C5 at non-empty parseable values. -/
theorem dateRange_matches_validateDateTimeRange_witness :
    (dateRange parseAB "" optsSE (formOf [dateInput "s" "A", dateInput "e" "B"])).valid
      = (validateDateTimeRange parseAB "A" "B").valid :=
  dateRange_matches_validateDateTimeRange parseAB
    (formOf [dateInput "s" "A", dateInput "e" "B"]) optsSE ""
    (dateInput "s" "A") (dateInput "e" "B") (by decide) (by decide) (by decide) (by decide)

/-! Claim C9. -/

theorem escChars_append (l1 l2 : List Char) :
    escChars (l1 ++ l2) = escChars l1 ++ escChars l2 := by
  induction l1 with
  | nil => rfl
  | cons c cs ih => simp [escChars, ih]

theorem string_mk_append (l1 l2 : List Char) :
    String.mk l1 ++ String.mk l2 = String.mk (l1 ++ l2) := rfl

theorem escapeHTMLstring_append (a b : String) :
    escapeHTMLstring (a ++ b) = escapeHTMLstring a ++ escapeHTMLstring b := by
  obtain ⟨da⟩ := a
  obtain ⟨db⟩ := b
  show String.mk (escChars (da ++ db)) = String.mk (escChars da) ++ String.mk (escChars db)
  rw [string_mk_append]
  exact congrArg String.mk (escChars_append da db)

theorem escapeChar_inert (c : Char) :
    ((escapeChar c).all
      (fun x => x != '<' && x != '>' && x != Char.ofNat 34 && x != Char.ofNat 39)) = true := by
  unfold escapeChar
  split_ifs with h1 h2 h3 h4 h5
  · decide
  · decide
  · decide
  · decide
  · decide
  · simp [h2, h3, h4, h5]

theorem escChars_inert (l : List Char) :
    ((escChars l).all
      (fun x => x != '<' && x != '>' && x != Char.ofNat 34 && x != Char.ofNat 39)) = true := by
  induction l with
  | nil => rfl
  | cons c cs ih =>
    simp only [escChars, List.all_append, ih, escapeChar_inert, Bool.and_true]

/-- C9 counterexample: a non-string message (here, a value whose template
interpolation is an image tag) is returned as-is by `escapeHTML` and
inserted into the toast body with its markup intact — the `<` is not
rendered as its entity escape. -/
theorem showToast_nonstring_message_not_escaped :
    toastBodyContent (JSVal.nonString "<img src=x>") = "<img src=x>"
    ∧ toastBodyContent (JSVal.nonString "<img src=x>") ≠ escapeHTMLstring "<img src=x>"
    ∧ '<' ∈ (toastBodyContent (JSVal.nonString "<img src=x>")).data := by
  refine ⟨rfl, by decide, by decide⟩

/-- C9 (amended): for every string message, the content inserted into
the toast body is the character-wise HTML escape of the message: each
occurrence of the five characters appears as its entity escape in place,
and the inserted content contains no raw markup-significant character
(`<`, `>`, the double quote, the apostrophe); non-string messages are
inserted without any escaping. -/
theorem showToast_string_message_escaped (s a b : String) :
    toastBodyContent (JSVal.str s) = escapeHTMLstring s
    ∧ escapeHTMLstring (a ++ "&" ++ b)
        = escapeHTMLstring a ++ "&amp;" ++ escapeHTMLstring b
    ∧ escapeHTMLstring (a ++ "<" ++ b)
        = escapeHTMLstring a ++ "&lt;" ++ escapeHTMLstring b
    ∧ escapeHTMLstring (a ++ ">" ++ b)
        = escapeHTMLstring a ++ "&gt;" ++ escapeHTMLstring b
    ∧ escapeHTMLstring (a ++ String.mk [Char.ofNat 34] ++ b)
        = escapeHTMLstring a ++ "&quot;" ++ escapeHTMLstring b
    ∧ escapeHTMLstring (a ++ String.mk [Char.ofNat 39] ++ b)
        = escapeHTMLstring a ++ "&#039;" ++ escapeHTMLstring b
    ∧ ((escapeHTMLstring s).data.all
        (fun c => c != '<' && c != '>' && c != Char.ofNat 34 && c != Char.ofNat 39)) = true := by
  refine ⟨rfl, ?_, ?_, ?_, ?_, ?_, ?_⟩
  · rw [escapeHTMLstring_append, escapeHTMLstring_append]
    rw [show escapeHTMLstring "&" = "&amp;" from rfl]
  · rw [escapeHTMLstring_append, escapeHTMLstring_append]
    rw [show escapeHTMLstring "<" = "&lt;" from rfl]
  · rw [escapeHTMLstring_append, escapeHTMLstring_append]
    rw [show escapeHTMLstring ">" = "&gt;" from rfl]
  · rw [escapeHTMLstring_append, escapeHTMLstring_append]
    rw [show escapeHTMLstring (String.mk [Char.ofNat 34]) = "&quot;" from by decide]
  · rw [escapeHTMLstring_append, escapeHTMLstring_append]
    rw [show escapeHTMLstring (String.mk [Char.ofNat 39]) = "&#039;" from by decide]
  · exact escChars_inert s.data

end FormKit
